import Mathlib

/-!
Verification of the path-to-power game engine core.

This development gives a shallow embedding, in Lean, of the character state
machine, the targeting ("gridlock") relation, the cooldown manager, the
movement flow and the command validation pipeline of the game server, and
proves (or refutes) the specified properties about them.

Conventions of the embedding:
* JavaScript numbers that only ever hold integral values are modelled as `Int`
  (or `Nat` where they index lists).
* JavaScript "falsy" checks on numeric arguments that may also be `null`
  (`if (!amount)`, `if (!duraction)`) are modelled by letting `0` stand for
  both `null` and `0`: the source treats the two identically at every use site.
* Promise chains in the source resolve synchronously over in-memory state;
  they are modelled as plain sequential state transformers.
* A code path on which the source raises a `TypeError` (and therefore mutates
  nothing further) is modelled by returning the state unchanged, or by an
  explicit `crashed` flag where a claim needs to see it.
-/

namespace PTP

/-- `Array.prototype.findIndex`, with the `-1` result modelled as `none`. -/
def findIndexN {α : Type} : List α → (α → Bool) → Option Nat
  | [], _ => none
  | x :: xs, p => if p x then some 0 else (findIndexN xs p).map (· + 1)

/-! ## Targeting / gridlock (character/object.js: setTarget, releaseTarget,
gridLock, gridRelease)

Characters hold mutual references (`A.target` is a character object, and
`B.targetedBy` is a list of character objects, compared by `user_id`).  The
cyclic object graph is flattened into a relational state indexed by
`user_id`. -/

structure TargetState where
  /-- `c.target`, by user id: the single optional outbound target field. -/
  target : Nat → Option Nat
  /-- `c.targetedBy`, by user id: who is aiming at this character. -/
  targetedBy : Nat → List Nat

/-- `gridLock(character)`: push the aimer onto `targetedBy` unless an entry
with the same `user_id` is already present (`findIndex ... === -1`). -/
def gridLock (s : TargetState) (victim aimer : Nat) : TargetState :=
  if (findIndexN (s.targetedBy victim) (fun u => u == aimer)).isSome then s
  else
    { s with
      targetedBy := fun v =>
        if v = victim then s.targetedBy victim ++ [aimer] else s.targetedBy v }

/-- `gridRelease(user_id)`: find the index of the aimer in `targetedBy` and
splice it out; no-op when the index is `-1`. -/
def gridRelease (s : TargetState) (victim aimer : Nat) : TargetState :=
  match findIndexN (s.targetedBy victim) (fun u => u == aimer) with
  | none => s
  | some i =>
    { s with
      targetedBy := fun v =>
        if v = victim then (s.targetedBy victim).eraseIdx i else s.targetedBy v }

/-- `releaseTarget()`: if a target is set, `target.gridRelease(this.user_id)`,
then clear `this.target`. -/
def releaseTarget (s : TargetState) (a : Nat) : TargetState :=
  let s1 :=
    match s.target a with
    | some t => gridRelease s t a
    | none => s
  { s1 with target := fun x => if x = a then none else s1.target x }

/-- `setTarget(target)`: `releaseTarget()` first, then assign the new target
and `target.gridLock(this)`. -/
def setTarget (s : TargetState) (a b : Nat) : TargetState :=
  let s1 := releaseTarget s a
  let s2 := { s1 with target := fun x => if x = a then some b else s1.target x }
  gridLock s2 b a

/-! ## Command tokenization and parameter stripping (command/manager.js) -/

/-- `String.prototype.substring(a, b)`: clamp both indices into `[0, length]`,
swap them when `a > b`, and return the half-open slice. -/
def jsSubstring (l : List Char) (a b : Int) : List Char :=
  let len : Int := l.length
  let a1 := min (max a 0) len
  let b1 := min (max b 0) len
  let lo := min a1 b1
  let hi := max a1 b1
  (l.take hi.toNat).drop lo.toNat

/-- `stripEncapsulation(param)` on the character list of the parameter:
if the first character is `"`, take `substring(1, length - 1)`; then, if the
last character (of the updated value) is `"`, take `substring(0, length - 2)`. -/
def stripChars (p : List Char) : List Char :=
  let p1 := if p.head? == some '"' then jsSubstring p 1 ((p.length : Int) - 1) else p
  if p1.getLast? == some '"' then jsSubstring p1 0 ((p1.length : Int) - 2) else p1

/-- `stripEncapsulation` on strings. -/
def stripEncapsulation (s : String) : String :=
  String.mk (stripChars s.data)

/-- `String.prototype.toLowerCase`, on the character list. -/
def jsToLower (s : String) : String :=
  String.mk (s.data.map Char.toLower)

/-- `String.prototype.trim`: strip whitespace from both ends. -/
def jsTrim (s : String) : String :=
  String.mk (((s.data.dropWhile Char.isWhitespace).reverse.dropWhile
    Char.isWhitespace).reverse)

/-- `a.indexOf(b) === 0`: `b` is a prefix of `a`. -/
def jsStartsWith (s pre : String) : Bool :=
  pre.data.isPrefixOf s.data

/-- Concrete state for the C1 witness: character 1 is aiming at character 3. -/
def c1State : TargetState where
  target := fun n => if n = 1 then some 3 else none
  targetedBy := fun n => if n = 3 then [1] else []

/-! ## Items and the character inventory (character/object.js, item object)

The Item object class itself is not part of the embedded sources; only its
use sites are.  Modelled from the spec: an item instance is a template id
plus instance attributes (durability/quantity, equipped slot), and the
durability accessors (`addDurability`, `setDurability`, `removeDurability`)
operate on that single durability/quantity attribute, which the source reads
both as `item.durability` and as `item.stats.durability`. -/

structure ItemStats where
  stackable : Bool
  /-- Durability of equipment, quantity of a stackable item. -/
  durability : Int
  equipable : Bool
  damage_reduction : Int
deriving Repr, DecidableEq

structure Item where
  id : Nat
  name : String
  subtype : String
  stats : ItemStats
  /-- Set by `equip`, cleared by `unEquip`, searched by `getEquippedSync`. -/
  equipped_slot : Option String
  /-- Read by `dropItem` (`inventoryItem.slot`) but never written anywhere in
  the source: the equipment flow writes `equipped_slot` only. -/
  slot : Option String
deriving Repr, DecidableEq

def Item.addDurability (it : Item) (n : Int) : Item :=
  { it with stats := { it.stats with durability := it.stats.durability + n } }

def Item.setDurability (it : Item) (n : Int) : Item :=
  { it with stats := { it.stats with durability := n } }

def Item.removeDurability (it : Item) (n : Int) : Item :=
  { it with stats := { it.stats with durability := it.stats.durability - n } }

structure Stats where
  health : Int
  health_max : Int
  money : Int
  bank : Int
  exp : Int
  inventorySize : Int
deriving Repr, DecidableEq

structure Location where
  map : String
  x : Int
  y : Int
deriving Repr, DecidableEq

/-- Modelled from the spec: a cooldown is an action key, the remaining ticks
and a started flag; expired cooldowns are flagged for removal (`remove`), the
flag the periodic reaper looks at.  The constructor `new Cooldown(action,
duraction, autostart)` records the duration as the remaining ticks and the
autostart argument as the started flag. -/
structure Cooldown where
  action : String
  ticks : Int
  started : Bool
  remove : Bool
deriving Repr, DecidableEq

structure Character where
  user_id : Nat
  name : String
  location : Location
  stats : Stats
  inventory : List Item
  cooldowns : List Cooldown
  /-- Names of the characters aiming at this one (`move` only reads the
  length of `targetedBy` and the aimers' names; the full relation is the
  `TargetState` model above). -/
  targetedBy : List String
  target : Option Nat
  hidden : Bool
deriving Repr, DecidableEq

/-- `getEquippedSync(slot)` for a given slot:
`this.inventory.find((obj) => obj.equipped_slot === slot)`. -/
def getEquippedSync (c : Character) (slot : String) : Option Item :=
  c.inventory.find? (fun obj => obj.equipped_slot == some slot)

/-- `inventorySpaceLeft()`: `stats.inventorySize - inventory.length`. -/
def inventorySpaceLeft (c : Character) : Int :=
  c.stats.inventorySize - (c.inventory.length : Int)

/-- `hasRoomForItem(itemObj, amount)`.  In the stackable branch the source
reassigns `amount` (`amount || stats.durability`) but never uses it again. -/
def hasRoomForItem (c : Character) (itemObj : Item) (amount : Int) : Bool :=
  if itemObj.stats.stackable then
    if (c.inventory.find? (fun obj => obj.id == itemObj.id)).isSome then true
    else if inventorySpaceLeft c ≤ 0 then false
    else true
  else
    let amt := if amount = 0 then 1 else amount
    if inventorySpaceLeft c - amt < 0 then false else true

/-- `inventoryItem.addDurability(amount)` applied to the first inventory entry
with the given template id (the object `find` returned,mutated in place). -/
def addDurabilityFirst : List Item → Nat → Int → List Item
  | [], _, _ => []
  | it :: rest, id, amt =>
    if it.id == id then it.addDurability amt :: rest
    else it :: addDurabilityFirst rest id amt

/-- The stackable branch of `giveItem`: merge into the existing stack with the
same template id, or set the durability and push a new stack. -/
def giveStack (c : Character) (itemObj : Item) (amt : Int) : Character :=
  if (c.inventory.find? (fun obj => obj.id == itemObj.id)).isSome then
    { c with inventory := addDurabilityFirst c.inventory itemObj.id amt }
  else
    { c with inventory := c.inventory ++ [itemObj.setDurability amt] }

/-- `giveItem(itemObj, 1)`: with amount 1 the recursion below never fires
(the loop `for (let i = 0; i > 0; i--)` runs zero times), so a single give is
either a stack merge with amount 1 or a plain push. -/
def giveOne (c : Character) (itemObj : Item) : Character :=
  if itemObj.stats.stackable then giveStack c itemObj 1
  else { c with inventory := c.inventory ++ [itemObj] }

/-- The loop `for (let i = amount - 1; i > 0; i--)` of `giveItem`: each
iteration gives one freshly created instance of the template
(`itemManager.add(itemObj.id)`, modelled by `mk`). -/
def extraGives (mk : Nat → Item) (c : Character) (id : Nat) : Nat → Character
  | 0 => c
  | k + 1 => extraGives mk (giveOne c (mk id)) id k

/-- `giveItem(itemObj, amount)` (amount `0` stands for the `null` default;
the source treats both as falsy). -/
def giveItem (mk : Nat → Item) (c : Character) (itemObj : Item)
    (amount : Int) : Character :=
  if itemObj.stats.stackable then
    giveStack c itemObj (if amount = 0 then itemObj.stats.durability else amount)
  else
    let c1 := { c with inventory := c.inventory ++ [itemObj] }
    if amount = 0 then c1
    else extraGives mk c1 itemObj.id (amount - 1).toNat

/-- The `switch (item.subtype)` of `equip`, mapping subtype to slot. -/
def slotFor : String → Option String
  | "ranged" => some "ranged"
  | "melee" => some "melee"
  | "body" => some "armor"
  | "ammo" => some "ammo"
  | _ => none

/-- `delete equippedItem.equipped_slot` on the first inventory entry equipped
in the given slot (the object `getEquipped(slot)` resolved). -/
def clearSlotFirst : List Item → String → List Item
  | [], _ => []
  | it :: rest, slot =>
    if it.equipped_slot == some slot then { it with equipped_slot := none } :: rest
    else it :: clearSlotFirst rest slot

/-- `equip(inventoryIndex)`: no-op when the item is missing, not equipable or
of an unknown subtype; otherwise unequip the current occupant of the slot (if
any) and set `equipped_slot` on the item. -/
def equip (c : Character) (inventoryIndex : Nat) : Character :=
  match c.inventory[inventoryIndex]? with
  | none => c
  | some item =>
    if !item.stats.equipable then c
    else
      match slotFor item.subtype with
      | none => c
      | some slot =>
        let inv1 := clearSlotFirst c.inventory slot
        { c with inventory := inv1.set inventoryIndex { item with equipped_slot := some slot } }

/-- `unEquip(slot)`: no-op on a falsy slot, otherwise clear `equipped_slot`
on the first item equipped there (no-op when the slot is empty). -/
def unEquip (c : Character) (slot : String) : Character :=
  if slot = "" then c
  else { c with inventory := clearSlotFirst c.inventory slot }

/-- JavaScript truthiness of an optional string (`undefined`/`null` and the
empty string are falsy). -/
def jsTruthyStr : Option String → Bool
  | none => false
  | some s => !(s == "")

/-- `takeItem(inventoryIndex, amount, itemList)`.  An index the source cannot
dereference raises a TypeError before any mutation; that path is modelled as
`(none, c)`. -/
def takeItem (c : Character) (inventoryIndex : Nat) (amount : Int)
    (itemList : Nat → Option Item) : Option Item × Character :=
  match c.inventory[inventoryIndex]? with
  | none => (none, c)
  | some selectedItem =>
    match itemList selectedItem.id with
    | none => (none, c)
    | some item =>
      if !item.stats.stackable then
        (some selectedItem, { c with inventory := c.inventory.eraseIdx inventoryIndex })
      else if selectedItem.stats.durability < amount then (none, c)
      else
        let takenItem := selectedItem.setDurability amount
        let newDur := selectedItem.stats.durability - amount
        if newDur ≤ 0 then
          (some takenItem, { c with inventory := c.inventory.eraseIdx inventoryIndex })
        else
          (some takenItem,
           { c with inventory := c.inventory.set inventoryIndex (selectedItem.setDurability newDur) })

/-- `dropItem(item, amount, isFleeing)`.  The selector is a number (`Sum.inl`,
what `parseInt` yields on a numeric argument) or a name (`Sum.inr`, the
non-numeric case, matched as a lowercase prefix).  `fleeRoll` stands for the
`Math.floor(Math.random() * durability) + 1` draw used when fleeing.  `mk`
models `itemManager.add` for the split of a stack.  Index values the source
cannot dereference raise a TypeError before any mutation and are modelled as
`(none, c)`. -/
def dropItem (mk : Nat → Item) (c : Character) (sel : Sum Int String)
    (amount : Int) (isFleeing : Bool) (fleeRoll : Int) : Option Item × Character :=
  let itemIndex : Int :=
    match sel with
    | Sum.inl i => i
    | Sum.inr name =>
      match findIndexN c.inventory
          (fun obj => jsStartsWith (jsToLower obj.name) (jsToLower name)) with
      | some i => (i : Int)
      | none => -1
  if itemIndex = -1 then (none, c)
  else if itemIndex < 0 then (none, c)
  else
    let idx := itemIndex.toNat
    match c.inventory[idx]? with
    | none => (none, c)
    | some invItem0 =>
      let c1 :=
        if isFleeing && jsTruthyStr invItem0.slot then
          unEquip c (invItem0.slot.getD "")
        else c
      let invItem := c1.inventory.getD idx invItem0
      if jsTruthyStr invItem.slot && !isFleeing then (none, c1)
      else if !invItem.stats.stackable then
        (some invItem, { c1 with inventory := c1.inventory.eraseIdx idx })
      else if invItem.stats.durability < amount then (none, c1)
      else
        let amt := if isFleeing then fleeRoll else amount
        if invItem.stats.durability - amt ≤ 0 then
          (some invItem, { c1 with inventory := c1.inventory.eraseIdx idx })
        else
          (some ((mk invItem.id).setDurability amt),
           { c1 with inventory := c1.inventory.set idx (invItem.removeDurability amt) })

/-! ## Combat: dealDamage (character/object.js) -/

structure DamageResult where
  damageBlocked : Int
  damageDealt : Int
  healthLeft : Int
  durabilityLeft : Int
  armorRuined : Bool
deriving Repr, DecidableEq

/-- `armorItem.durability = durabilityLeft` on the first inventory entry
equipped in the armor slot (the object `getEquippedSync('armor')` returned). -/
def setFirstArmorDurability : List Item → Int → List Item
  | [], _ => []
  | it :: rest, d =>
    if it.equipped_slot == some "armor" then
      { it with stats := { it.stats with durability := d } } :: rest
    else it :: setFirstArmorDurability rest d

/-- `dealDamage(damage, ignoreArmor)`.  On armor ruin the source calls
`itemManager.remove(this, armor)` where `armor` is the numeric damage
reduction, not the armor item, so no inventory entry is removed; the ruined
armor stays in the inventory with durability 0. -/
def dealDamage (c : Character) (damage : Int) (ignoreArmor : Bool) :
    Character × DamageResult :=
  let armorItem := getEquippedSync c "armor"
  let armor : Int :=
    match armorItem, ignoreArmor with
    | some it, false => it.stats.damage_reduction
    | _, _ => 0
  let durability : Int :=
    match armorItem, ignoreArmor with
    | some it, false => it.stats.durability
    | _, _ => 0
  let damageBlocked := min damage (min armor durability)
  let damageDealt := max 0 (damage - damageBlocked)
  let healthLeft := max 0 (c.stats.health - damageDealt)
  let durabilityLeft := max 0 (durability - damage)
  let inv1 :=
    match armorItem, ignoreArmor with
    | some _, false => setFirstArmorDurability c.inventory durabilityLeft
    | _, _ => c.inventory
  let armorRuined := durabilityLeft == 0 && !(durability == 0)
  ({ c with inventory := inv1, stats := { c.stats with health := healthLeft } },
   { damageBlocked := damageBlocked, damageDealt := damageDealt,
     healthLeft := healthLeft, durabilityLeft := durabilityLeft,
     armorRuined := armorRuined })

/-! ## Cooldown manager (cooldown/manager.js) -/

/-- `CooldownManager.add(character, action, duraction, autostart)`: default
the duration from the per-action config table (`cfg`, with `0` standing for
both an absent entry and a configured `0`, which the source treats alike);
without a duration the call is a no-op.  Otherwise push a new cooldown and
return it. -/
def cooldownAdd (cfg : String → Int) (c : Character) (action : String)
    (duraction : Int) (autostart : Bool) : Character × Option Cooldown :=
  let d := if duraction = 0 then cfg action else duraction
  if d = 0 then (c, none)
  else
    let newCooldown : Cooldown :=
      { action := action, ticks := d, started := autostart, remove := false }
    ({ c with cooldowns := c.cooldowns ++ [newCooldown] }, some newCooldown)

/-- `CooldownManager.ticksLeft(character, action)`: the ticks of the first
cooldown for the action with positive ticks, `0` otherwise. -/
def ticksLeft (c : Character) (action : String) : Int :=
  match c.cooldowns.find? (fun cd => cd.action == action && decide (0 < cd.ticks)) with
  | none => 0
  | some cooldown => max 0 cooldown.ticks

/-- `CooldownManager.cleanup(character)`:
`character.cooldowns = character.cooldowns.filter((obj) => obj.remove)`. -/
def cleanup (c : Character) : Character :=
  { c with cooldowns := c.cooldowns.filter (fun obj => obj.remove) }

/-! ## Movement (character/manager.js: move) -/

inductive Axis where
  | x
  | y
deriving Repr, DecidableEq

/-- The client move payload `{grid: 'y'|'x', direction: 1|-1}`. -/
structure MoveAction where
  grid : Axis
  direction : Int
deriving Repr, DecidableEq

/-- Externally visible effects of a `move` call. -/
structure MoveEffects where
  /-- Warnings sent to the mover's own socket (`eventToSocket`). -/
  socketMsgs : List String
  /-- Room-scoped events and dispatches, as (room id, event) pairs. -/
  roomMsgs : List (String × String)
  /-- Whether `releaseTarget` ran (clearing aim on the previous target). -/
  releasedTarget : Bool
  /-- Whether the mover's client was resynced. -/
  clientUpdated : Bool
  /-- `newCooldown.start()` raises a TypeError when no 'move' duration is
  configured (`add` returned nothing). -/
  crashed : Bool
deriving Repr, DecidableEq

def emptyEffects : MoveEffects :=
  { socketMsgs := [], roomMsgs := [], releasedTarget := false,
    clientUpdated := false, crashed := false }

/-- `getLocationId()`: the room key `map_y_x`. -/
def getLocationId (c : Character) : String :=
  c.location.map ++ "_" ++ toString c.location.y ++ "_" ++ toString c.location.x

/-- `newLocation[moveAction.grid] += moveAction.direction`. -/
def destOf (c : Character) (ma : MoveAction) : Location :=
  match ma.grid with
  | Axis.x => { c.location with x := c.location.x + ma.direction }
  | Axis.y => { c.location with y := c.location.y + ma.direction }

/-- `newCooldown.start()`: the pushed cooldown (the last list entry) begins
ticking. -/
def startLastCooldown (cds : List Cooldown) (added : Option Cooldown) : List Cooldown :=
  match added with
  | none => cds
  | some cd => cds.dropLast ++ [{ cd with started := true }]

/-- `CharacterManager.move(socket, moveAction)`.  `isValid` models the
`mapManager.isValidLocation` catalog query, `cfg` the `playerCooldowns`
config table. -/
def move (isValid : String → Int → Int → Bool) (cfg : String → Int)
    (c : Character) (ma : MoveAction) : Character × MoveEffects :=
  if !c.targetedBy.isEmpty then
    (c, { emptyEffects with
          socketMsgs := ["You can't move as the following players are aiming at you: "
            ++ String.intercalate ", " c.targetedBy] })
  else if c.hidden then
    (c, { emptyEffects with
          socketMsgs := ["You can't move as long as you are hidden. type /unhide to come out of hiding."] })
  else if !(ticksLeft c "move" = 0) then (c, emptyEffects)
  else
    let added := cooldownAdd cfg c "move" 0 false
    let c1 := added.1
    let dest := destOf c1 ma
    if isValid dest.map dest.x dest.y then
      let directionOut :=
        match ma.grid with
        | Axis.y => if ma.direction = 1 then "South" else "North"
        | Axis.x => if ma.direction = 1 then "East" else "West"
      let directionIn :=
        match ma.grid with
        | Axis.y => if ma.direction = 1 then "North" else "South"
        | Axis.x => if ma.direction = 1 then "West" else "East"
      let oldRoom := getLocationId c1
      let c2 := { c1 with target := none, location := dest }
      let newRoom := getLocationId c2
      let c3 := { c2 with cooldowns := startLastCooldown c2.cooldowns added.2 }
      (c3,
       { socketMsgs := [],
         roomMsgs :=
          [(oldRoom, c1.name ++ " leaves to the " ++ directionOut),
           (oldRoom, "LEFT_GRID"),
           (newRoom, c1.name ++ " strolls in from the " ++ directionIn),
           (newRoom, "JOINED_GRID")],
         releasedTarget := true,
         clientUpdated := true,
         crashed := added.2.isNone })
    else (c1, emptyEffects)

/-! ## Parameter validation (command/manager.js: validate)

The rule string of a slot is lowercased and pipe-split by the source before
evaluation; the embedding works on the resulting list, parsed into the pure
rule kinds (`required`, `minlen:n`, `maxlen:n`, `direction`).  The catalog
and entity rule kinds (`faction`, `gamemap`, `shop`, `item`,
`player`/`target`/`npc`) resolve against live managers outside the embedded
state and are not modelled; none of the claims need them.  The modelled rule
kinds never overwrite the slot value (`value = msgParam` throughout), so the
parameter array stays a list of strings. -/

inductive Rule where
  | required
  | minlen (n : Nat)
  | maxlen (n : Nat)
  | direction
deriving Repr, DecidableEq

structure CmdParam where
  name : String
  rules : List Rule
deriving Repr, DecidableEq

/-- Outcome of `validate`: `resolve(msgParams)`, `reject(message)`, or a
TypeError inside the async executor (the promise never settles and nothing
further runs). -/
inductive VOut where
  | ok (params : List String)
  | rejected (msg : String)
  | crashed
deriving Repr, DecidableEq

/-- One rule of a slot's chain: `none` passes, `some msg` rejects.
`required` tests `typeof msgParam === 'undefined'`; at this point the slot
value has already been overwritten with `stripEncapsulation(msgParams[index])`,
which is always a string (an undefined entry would have raised a TypeError
there first), so `required` never rejects here. -/
def runRule (p : CmdParam) (tok : String) : Rule → Option String
  | Rule.required => none
  | Rule.minlen n =>
    if tok.length < n then
      some (p.name ++ " must be at least " ++ toString n ++ " characters long.")
    else none
  | Rule.maxlen n =>
    if tok.length > n then
      some (p.name ++ " cannot be longer than " ++ toString n ++ " characters.")
    else none
  | Rule.direction =>
    if ["north", "east", "south", "west", "n", "e", "s", "w"].contains (jsToLower tok)
    then none
    else some (p.name ++ " does not appear to be a valid direction.")

/-- The inner `for (let i = 0; i < rules.length; i++)` loop: first failing
rule rejects. -/
def runRules (p : CmdParam) (tok : String) : List Rule → Option String
  | [] => none
  | r :: rs =>
    match runRule p tok r with
    | some msg => some msg
    | none => runRules p tok rs

/-- `msgParams.slice(0, cmdParams.length - 1).concat(msgParams.slice(cmdParams.length - 1).join(' '))`:
everything beyond the declared count is rejoined into the final slot.  With
zero declared parameters the `-1` indices count from the end, JavaScript
slice semantics. -/
def prepare (msgParams : List String) (n : Nat) : List String :=
  if n = 0 then
    msgParams.dropLast
      ++ [String.intercalate " " (msgParams.drop (msgParams.length - 1))]
  else
    msgParams.take (n - 1) ++ [String.intercalate " " (msgParams.drop (n - 1))]

/-- The outer `for (let index = 0; index < cmdParams.length; index++)` loop.
Reading an entry past the end of the parameter array
(`stripEncapsulation(undefined)`) raises a TypeError.  An empty slot value
whose rules do not include `required` hits `break`, which leaves the whole
loop and resolves. -/
def runSlots (arr : List String) : List CmdParam → Nat → VOut
  | [], _ => VOut.ok arr
  | p :: rest, i =>
    match arr[i]? with
    | none => VOut.crashed
    | some tok0 =>
      let tok := stripEncapsulation tok0
      let arr1 := arr.set i tok
      if p.rules.isEmpty then runSlots arr1 rest (i + 1)
      else if tok == "" && !(p.rules.contains Rule.required) then VOut.ok arr1
      else
        match runRules p tok p.rules with
        | some msg => VOut.rejected msg
        | none => runSlots arr1 rest (i + 1)

/-- `validate(player, msgParams, cmdParams)`.  The character argument is only
consulted by the unmodelled catalog/entity rule kinds, so it is carried but
unused here. -/
def validate (character : Option Nat) (msgParams : List String)
    (cmdParams : Option (List CmdParam)) : VOut :=
  match cmdParams with
  | none => VOut.ok msgParams
  | some ps => runSlots (prepare msgParams ps.length) ps 0

/-! ## Command dispatch (command/manager.js: onDispatch, parseParameters) -/

/-- The loop of `parseParameters`: split on spaces outside quoted spans,
keeping the quote characters in the token; push the trailing token only when
non-empty. -/
def ppLoop : List Char → Bool → List Char → List (List Char) → List (List Char)
  | [], _, param, params => if param.isEmpty then params else params ++ [param]
  | ch :: rest, insideString, param, params =>
    if ch = ' ' && !insideString then ppLoop rest insideString [] (params ++ [param])
    else
      ppLoop rest (if ch = '"' then !insideString else insideString)
        (param ++ [ch]) params

/-- `parseParameters(paramString)`. -/
def parseParameters (s : String) : List String :=
  (ppLoop s.data false [] []).map String.mk

/-- The redux action type the command manager listens for. -/
def GAME_COMMAND : String := "GAME_COMMAND"

/-- A registered command definition: the declared parameter rules (`params`
may be absent entirely, in which case validation resolves immediately). -/
structure CmdDef where
  params : Option (List CmdParam)
deriving Repr, DecidableEq

/-- Externally visible effects of one `onDispatch` call. -/
structure DispatchEffects where
  /-- The handler invocation, if any: command key, the character resolved for
  the connection (`none` when the lookup found nothing) and the validated
  parameters. -/
  handlerCalled : Option (String × Option Nat × List String)
  /-- Error events sent back to the originating socket. -/
  socketMsgs : List String
deriving Repr, DecidableEq

/-- `characterManager.getSync(user_id)`: `null` on a falsy id, otherwise the
managed character with that id, if any (ids stand for the characters). -/
def getSyncL (characters : List Nat) (user_id : Nat) : Option Nat :=
  if user_id = 0 then none
  else if characters.contains user_id then some user_id else none

/-- `CommandManager.onDispatch(socket, action)`. -/
def onDispatch (commands : String → Option CmdDef) (characters : List Nat)
    (socketUserId : Nat) (actionType : String) (payload : String) :
    DispatchEffects :=
  if !(actionType == GAME_COMMAND) then { handlerCalled := none, socketMsgs := [] }
  else if payload == "" then { handlerCalled := none, socketMsgs := [] }
  else
    let payload1 := jsTrim payload
    if payload1 == "" then { handlerCalled := none, socketMsgs := [] }
    else
      match parseParameters payload1 with
      | [] => { handlerCalled := none, socketMsgs := [] }
      | cmd0 :: rest =>
        let command := jsToLower cmd0
        match commands command with
        | none =>
          { handlerCalled := none,
            socketMsgs := ["Command " ++ command ++ " is not a valid command."] }
        | some cdef =>
          let character := getSyncL characters socketUserId
          match validate character rest cdef.params with
          | VOut.ok validParams =>
            { handlerCalled := some (command, character, validParams),
              socketMsgs := [] }
          | VOut.rejected msg => { handlerCalled := none, socketMsgs := [msg] }
          | VOut.crashed => { handlerCalled := none, socketMsgs := [] }

/-! ## Inventory operation sequences (for the capacity invariant)

`applyOp` guards each `giveItem` behind `hasRoomForItem`, the capacity
pre-check the spec pairs with it; the raw, unguarded `giveItem` is what the
counterexample below exercises. -/

inductive InvOp where
  | give (itemObj : Item) (amount : Int)
  | equipIdx (inventoryIndex : Nat)
  | unequipSlot (slot : String)
  | drop (sel : Sum Int String) (amount : Int) (isFleeing : Bool) (fleeRoll : Int)
  | take (inventoryIndex : Nat) (amount : Int)

def applyOp (mk : Nat → Item) (itemList : Nat → Option Item) (op : InvOp)
    (c : Character) : Character :=
  match op with
  | InvOp.give itemObj amount =>
    if hasRoomForItem c itemObj amount then giveItem mk c itemObj amount else c
  | InvOp.equipIdx i => equip c i
  | InvOp.unequipSlot s => unEquip c s
  | InvOp.drop sel amount isFleeing fleeRoll =>
    (dropItem mk c sel amount isFleeing fleeRoll).2
  | InvOp.take i amount => (takeItem c i amount itemList).2

def applyOps (mk : Nat → Item) (itemList : Nat → Option Item)
    (ops : List InvOp) (c : Character) : Character :=
  ops.foldl (fun acc op => applyOp mk itemList op acc) c

/-! ## Concrete example data used by counterexamples and witnesses -/

/-- A plain non-stackable equipable knife. -/
def knife : Item :=
  { id := 1, name := "knife",
    subtype := "melee",
    stats := { stackable := false, durability := 1, equipable := true,
               damage_reduction := 0 },
    equipped_slot := none, slot := none }

/-- `itemManager.add` for the examples: a fresh default instance per id. -/
def mkDefault : Nat → Item := fun i => { knife with id := i }

def baseStats : Stats :=
  { health := 100, health_max := 100, money := 0, bank := 0, exp := 0,
    inventorySize := 30 }

def baseChar : Character :=
  { user_id := 1, name := "alice",
    location := { map := "map1", x := 0, y := 0 },
    stats := baseStats, inventory := [], cooldowns := [],
    targetedBy := [], target := none, hidden := false }

/-- A character whose single inventory slot is already full. -/
def c2Char : Character :=
  { baseChar with inventory := [knife],
                  stats := { baseStats with inventorySize := 1 } }

/-- 100/100 health, no armor. -/
def c3NoArmor : Character := baseChar

/-- Armor with damage reduction 10 and durability 5, equipped. -/
def c3ArmorItem : Item :=
  { id := 2, name := "vest", subtype := "body",
    stats := { stackable := false, durability := 5, equipable := true,
               damage_reduction := 10 },
    equipped_slot := some "armor", slot := none }

def c3Armored : Character := { baseChar with inventory := [c3ArmorItem] }

/-- The knife as `equip` leaves it: `equipped_slot` set, `slot` untouched. -/
def c5Knife : Item := { knife with equipped_slot := some "melee" }

def c5Char : Character := { baseChar with inventory := [c5Knife] }

/-- An active cooldown (still ticking, not flagged for removal). -/
def c6Active : Cooldown :=
  { action := "move", ticks := 5, started := true, remove := false }

/-- An expired cooldown, flagged for removal by the tick handler. -/
def c6Expired : Cooldown :=
  { action := "shoot", ticks := 0, started := true, remove := true }

def c6Char : Character := { baseChar with cooldowns := [c6Active, c6Expired] }

/-- A config table with a 30-tick 'move' cooldown. -/
def c4Cfg : String → Int := fun action => if action == "move" then 30 else 0

/-- A map catalog on which no destination is valid. -/
def c4Invalid : String → Int → Int → Bool := fun _ _ _ => false

/-- Slot `a` (a direction) followed by slot `b` (at least five characters). -/
def c7Params : List CmdParam :=
  [{ name := "a", rules := [Rule.direction] },
   { name := "b", rules := [Rule.minlen 5] }]

/-- The same command with slot `a`'s rules removed: how validation would run
if an empty non-required slot skipped only its own rules. -/
def c7ParamsNoRules : List CmdParam :=
  [{ name := "a", rules := [] },
   { name := "b", rules := [Rule.minlen 5] }]

/-- A registry holding one parameterless command, `/ping`. -/
def c8Commands : String → Option CmdDef :=
  fun k => if k == "/ping" then some { params := none } else none

/-- A stackable ammunition item (quantity 10). -/
def bullets : Item :=
  { id := 3, name := "9mm bullets", subtype := "ammo",
    stats := { stackable := true, durability := 10, equipable := true,
               damage_reduction := 0 },
    equipped_slot := none, slot := none }

/-- The unstarted 30-tick 'move' cooldown `cooldownAdd` pushes under
`c4Cfg`. -/
def moveCooldown30 : Cooldown :=
  { action := "move", ticks := 30, started := false, remove := false }

/-- Whether an inventory operation carries a nonnegative amount (user-facing
amounts are parsed quantities, never negative). -/
def InvOp.goodAmount : InvOp → Prop
  | InvOp.give _ amount => 0 ≤ amount
  | _ => True

/-! ### Supporting lemmas: targeting -/

theorem findIndexN_isSome_mem {l : List Nat} {a : Nat}
    (h : (findIndexN l (fun u => u == a)).isSome) : a ∈ l := by
  induction l with
  | nil => simp [findIndexN] at h
  | cons x xs ih =>
    rcases eq_or_ne x a with hx | hx
    · rw [hx]; exact List.mem_cons_self a xs
    · have hb : (x == a) = false := beq_eq_false_iff_ne.mpr hx
      simp only [findIndexN, hb, Bool.false_eq_true, if_false] at h
      cases hfi : findIndexN xs (fun u => u == a) with
      | none => rw [hfi] at h; simp at h
      | some i => exact List.mem_cons_of_mem x (ih (by rw [hfi]; rfl))

theorem eraseIdx_findIndexN_eq_erase (l : List Nat) (a : Nat) :
    (match findIndexN l (fun u => u == a) with
      | none => l
      | some i => l.eraseIdx i) = l.erase a := by
  induction l with
  | nil => rfl
  | cons x xs ih =>
    by_cases hx : x = a
    · simp [findIndexN, hx, List.erase_cons_head]
    · have hbeq : (x == a) = false := by simp [hx]
      rw [List.erase_cons_tail]
      · simp only [findIndexN, hbeq, if_false]
        cases hfi : findIndexN xs (fun u => u == a) with
        | none => rw [hfi] at ih; simpa using ih
        | some i =>
          rw [hfi] at ih
          simpa [List.eraseIdx_cons_succ] using ih
      · simpa using hx

theorem gridLock_target (s : TargetState) (v a : Nat) :
    (gridLock s v a).target = s.target := by
  unfold gridLock; split <;> rfl

theorem gridLock_mem (s : TargetState) (v a : Nat) :
    a ∈ (gridLock s v a).targetedBy v := by
  unfold gridLock
  split
  · next h => exact findIndexN_isSome_mem h
  · simp

theorem gridLock_other (s : TargetState) (v a w : Nat) (h : w ≠ v) :
    (gridLock s v a).targetedBy w = s.targetedBy w := by
  unfold gridLock; split
  · rfl
  · simp [h]

theorem gridRelease_self (s : TargetState) (v a : Nat) :
    (gridRelease s v a).targetedBy v = (s.targetedBy v).erase a := by
  have key := eraseIdx_findIndexN_eq_erase (s.targetedBy v) a
  unfold gridRelease
  cases hfi : findIndexN (s.targetedBy v) (fun u => u == a) with
  | none => rw [hfi] at key; simpa using key
  | some i => rw [hfi] at key; simpa using key

theorem releaseTarget_targetedBy (s : TargetState) (a t : Nat)
    (h : s.target a = some t) :
    (releaseTarget s a).targetedBy t = (s.targetedBy t).erase a := by
  unfold releaseTarget
  rw [h]
  exact gridRelease_self s t a

theorem not_mem_erase_of_count_le_one {l : List Nat} {a : Nat}
    (h : l.count a ≤ 1) : a ∉ l.erase a := by
  intro hmem
  have h1 : 1 ≤ (l.erase a).count a := List.one_le_count_iff.mpr hmem
  have h2 : (l.erase a).count a = l.count a - 1 := List.count_erase_self a l
  omega

/-! ### Claim theorems: targeting -/

/-- Claim C1: after `A.setTarget(B)`, `A.target = B` and `A ∈ B.targetedBy`;
`A` has at most one outbound target (the single optional `target` field,
overwritten only after the previous target is released); and after
`A.releaseTarget()` (or a `setTarget` to a new target) the previous target `t`
no longer lists `A` in `targetedBy`, provided `A` appeared there at most once
(which `gridLock`'s duplicate guard maintains). -/
theorem C1_targeting (s : TargetState) (a b : Nat) :
    (setTarget s a b).target a = some b
    ∧ a ∈ (setTarget s a b).targetedBy b
    ∧ (∀ c, (setTarget s a b).target a = some c → c = b)
    ∧ (releaseTarget s a).target a = none
    ∧ (∀ t, s.target a = some t → (s.targetedBy t).count a ≤ 1 →
        a ∉ (releaseTarget s a).targetedBy t)
    ∧ (∀ t, s.target a = some t → t ≠ b → (s.targetedBy t).count a ≤ 1 →
        a ∉ (setTarget s a b).targetedBy t) := by
  refine ⟨?_, ?_, ?_, ?_, ?_, ?_⟩
  · show (gridLock _ b a).target a = some b
    rw [gridLock_target]
    simp
  · exact gridLock_mem _ b a
  · intro c hc
    have h1 : (setTarget s a b).target a = some b := by
      show (gridLock _ b a).target a = some b
      rw [gridLock_target]; simp
    rw [h1] at hc
    exact (Option.some_inj.mp hc).symm
  · show (if a = a then none else _) = none
    simp
  · intro t ht hcount
    rw [releaseTarget_targetedBy s a t ht]
    exact not_mem_erase_of_count_le_one hcount
  · intro t ht htb hcount
    show a ∉ (gridLock _ b a).targetedBy t
    rw [gridLock_other _ b a t htb]
    show a ∉ (releaseTarget s a).targetedBy t
    rw [releaseTarget_targetedBy s a t ht]
    exact not_mem_erase_of_count_le_one hcount

/-- Witness for C1 at a concrete state: character 1 retargets from 3 to 2. -/
theorem C1_targeting_witness :
    (setTarget c1State 1 2).target 1 = some 2
    ∧ 1 ∈ (setTarget c1State 1 2).targetedBy 2
    ∧ (releaseTarget c1State 1).target 1 = none
    ∧ c1State.target 1 = some 3
    ∧ (c1State.targetedBy 3).count 1 ≤ 1
    ∧ 1 ∉ (releaseTarget c1State 1).targetedBy 3
    ∧ 1 ∉ (setTarget c1State 1 2).targetedBy 3 := by
  have h := C1_targeting c1State 1 2
  refine ⟨h.1, h.2.1, h.2.2.2.1, by decide, by decide, ?_, ?_⟩
  · exact h.2.2.2.2.1 3 (by decide) (by decide)
  · exact h.2.2.2.2.2 3 (by decide) (by decide) (by decide)

/-! ### Supporting lemmas: stripEncapsulation -/

theorem jsSubstring_eq (l : List Char) (a b : Nat) (hab : a ≤ b)
    (hb : b ≤ l.length) :
    jsSubstring l (a : Int) (b : Int) = (l.take b).drop a := by
  unfold jsSubstring
  dsimp only
  have h1 : min (max (a : Int) 0) (l.length : Int) = (a : Int) := by omega
  have h2 : min (max (b : Int) 0) (l.length : Int) = (b : Int) := by omega
  rw [h1, h2]
  have h3 : min (a : Int) (b : Int) = (a : Int) := by omega
  have h4 : max (a : Int) (b : Int) = (b : Int) := by omega
  rw [h3, h4, Int.toNat_natCast, Int.toNat_natCast]

theorem getLast?_mem {l : List Char} {c : Char} (h : l.getLast? = some c) :
    c ∈ l := by
  induction l with
  | nil => simp at h
  | cons x xs ih =>
    cases xs with
    | nil => simp at h; simp [h]
    | cons y ys =>
      rw [List.getLast?_cons_cons] at h
      exact List.mem_cons_of_mem x (ih h)

/-- Claim C10: for a token of length at least two that begins and ends with a
double quote and holds no other double quote, `stripEncapsulation` returns the
interior with both quotes removed and nothing else changed; but for a token
whose last character is a double quote while its first is not, it removes the
final TWO characters (`substring(0, length - 2)`), not just the closing
quote. -/
theorem C10_stripEncapsulation :
    (∀ interior : List Char, '"' ∉ interior →
      stripChars ('"' :: (interior ++ ['"'])) = interior)
    ∧ (∀ l : List Char, l.head? ≠ some '"' → l.getLast? = some '"' →
      stripChars l = l.take (l.length - 2)) := by
  constructor
  · intro interior hq
    unfold stripChars
    have hhead : (('"' :: (interior ++ ['"'])).head? == some '"') = true := by
      simp
    rw [hhead]
    simp only [if_true]
    have hlen : ('"' :: (interior ++ ['"'])).length = interior.length + 2 := by
      simp
    have hcast : ((('"' :: (interior ++ ['"'])).length : Int) - 1)
        = ((interior.length + 1 : Nat) : Int) := by
      rw [hlen]; push_cast; ring
    have hsub : jsSubstring ('"' :: (interior ++ ['"'])) 1
        ((('"' :: (interior ++ ['"'])).length : Int) - 1) = interior := by
      rw [hcast]
      rw [show (1 : Int) = ((1 : Nat) : Int) from rfl]
      rw [jsSubstring_eq _ 1 (interior.length + 1) (by omega) (by simp)]
      rw [List.take_succ_cons]
      rw [List.take_append_of_le_length (le_refl interior.length)]
      rw [List.take_length, List.drop_succ_cons, List.drop_zero]
    rw [hsub]
    have hlast : (interior.getLast? == some '"') = false := by
      cases hg : interior.getLast? with
      | none => rfl
      | some c =>
        have hc : c ∈ interior := getLast?_mem hg
        have : c ≠ '"' := fun hcq => hq (hcq ▸ hc)
        simp [this]
    rw [hlast]
    simp
  · intro l hhead hlast
    unfold stripChars
    have hh : (l.head? == some '"') = false := by
      cases hg : l.head? with
      | none => rfl
      | some c =>
        have : c ≠ '"' := fun hcq => hhead (by rw [hg, hcq])
        simp [this]
    rw [hh]
    simp only [Bool.false_eq_true, if_false]
    have hl : (l.getLast? == some '"') = true := by rw [hlast]; simp
    rw [hl]
    simp only [if_true]
    -- the list has at least one element; if it had exactly one, its head and
    -- last character would coincide, contradicting the hypotheses
    match l, hhead, hlast with
    | [x], hhead, hlast =>
      simp at hlast
      rw [hlast] at hhead
      simp at hhead
    | x :: y :: rest, hhead, hlast =>
      have hlen2 : 2 ≤ (x :: y :: rest).length := by simp
      have hcast : (((x :: y :: rest).length : Int) - 2)
          = (((x :: y :: rest).length - 2 : Nat) : Int) := by
        push_cast [hlen2]; ring
      rw [hcast]
      rw [show (0 : Int) = ((0 : Nat) : Int) from rfl]
      rw [jsSubstring_eq _ 0 ((x :: y :: rest).length - 2) (by omega) (by omega)]
      rw [List.drop_zero]

/-! ### Claim theorems: closed counterexamples and code-bug evaluations -/

/-- Claim C6 (code bug): `cleanup` claims (and its doc comment says) it
removes the expired cooldowns, but `filter((obj) => obj.remove)` KEEPS
exactly the entries flagged for removal and deletes every active one: on a
character with one active and one expired cooldown, the expired entry is the
sole survivor. -/
theorem C6_cleanup_keeps_expired :
    c6Char.cooldowns = [c6Active, c6Expired]
    ∧ c6Active.remove = false
    ∧ c6Expired.remove = true
    ∧ (cleanup c6Char).cooldowns = [c6Expired] := by
  decide

/-- Claim C5 (code bug): `dropItem` tests `inventoryItem.slot`, a property the
source never writes (`equip` marks equipment via `equipped_slot`), so an
equipped item is dropped even with `isFleeing = false` — the guard the
comment "they cannot drop items which are equipped" describes never fires.
With `isFleeing = true` the item is likewise dropped without being
unequipped (it leaves with `equipped_slot` still set). -/
theorem C5_equipped_item_dropped :
    c5Char.inventory = [c5Knife]
    ∧ c5Knife.equipped_slot = some "melee"
    ∧ dropItem mkDefault c5Char (Sum.inl 0) 1 false 0
        = (some c5Knife, { c5Char with inventory := [] })
    ∧ (dropItem mkDefault c5Char (Sum.inl 0) 1 true 0).1 = some c5Knife := by
  decide

/-- Claim C2, counterexample: `giveItem` itself never checks capacity, so a
single unguarded give on a full inventory (size 1, one knife) pushes past
`stats.inventorySize`, refuting the claim for raw operation sequences. -/
theorem C2_capacity_counterexample :
    ((c2Char.inventory.length : Int) ≤ c2Char.stats.inventorySize)
    ∧ ¬(((giveItem mkDefault c2Char knife 1).inventory.length : Int)
        ≤ (giveItem mkDefault c2Char knife 1).stats.inventorySize) := by
  decide

/-- Claim C4, counterexample: on a move whose destination is invalid, the
location stays put and no room broadcast or warning goes out, but the 'move'
cooldown has already been pushed onto the character's cooldown list before
the destination is validated — character state IS modified. -/
theorem C4_cooldown_added_on_invalid_move :
    ((move c4Invalid c4Cfg baseChar { grid := Axis.x, direction := 1 }).1.location
      = baseChar.location)
    ∧ ((move c4Invalid c4Cfg baseChar { grid := Axis.x, direction := 1 }).2.roomMsgs = [])
    ∧ ((move c4Invalid c4Cfg baseChar { grid := Axis.x, direction := 1 }).2.socketMsgs = [])
    ∧ ¬((move c4Invalid c4Cfg baseChar { grid := Axis.x, direction := 1 }).1.cooldowns
        = baseChar.cooldowns) := by
  decide

/-- Claim C7, counterexample: with slot `a` empty (non-required) and slot `b`
carrying a failing rule, the source's `break` resolves validation
successfully — but if only slot `a`'s remaining rules were skipped (same
command with `a`'s rules emptied), slot `b`'s chain would reject.  The two
runs differ, refuting the claim that subsequent slots are still evaluated. -/
theorem C7_break_skips_later_slots :
    validate none ["", "x"] (some c7Params) = VOut.ok ["", "x"]
    ∧ validate none ["", "x"] (some c7ParamsNoRules)
        = VOut.rejected "b must be at least 5 characters long." := by
  decide

/-- Claim C8, counterexample: `onDispatch` never checks the result of the
character lookup; with no live character for the connection, a `/ping`
dispatch still reaches the handler (invoked with a null character) instead of
being dropped. -/
theorem C8_dispatch_without_character :
    getSyncL [] 7 = none
    ∧ onDispatch c8Commands [] 7 GAME_COMMAND "/ping"
        = { handlerCalled := some ("/ping", none, []), socketMsgs := [] } := by
  decide

/-- Witness for C10 at the concrete tokens `"ab"` and `ab"`. -/
theorem C10_stripEncapsulation_witness :
    ('"' ∉ ['a', 'b'])
    ∧ stripChars ('"' :: (['a', 'b'] ++ ['"'])) = ['a', 'b']
    ∧ (['a', 'b', '"'].head? ≠ some '"')
    ∧ ['a', 'b', '"'].getLast? = some '"'
    ∧ stripChars ['a', 'b', '"'] = ['a'] := by
  refine ⟨by decide, ?_, by decide, by decide, ?_⟩
  · exact C10_stripEncapsulation.1 ['a', 'b'] (by decide)
  · have h := C10_stripEncapsulation.2 ['a', 'b', '"'] (by decide) (by decide)
    simpa using h

/-! ### Amended claim theorems -/

/-- Claim C4, amended: a move to a nonexistent destination (with the
gridlock, hidden and cooldown gates passing) leaves the location, inventory,
stats and target untouched and sends no broadcast or warning — but a 'move'
cooldown entry (unstarted) has already been appended to the cooldown list
whenever the config table carries a 'move' duration. -/
theorem C4_invalid_move (isValid : String → Int → Int → Bool)
    (cfg : String → Int) (c : Character) (ma : MoveAction)
    (h1 : c.targetedBy = []) (h2 : c.hidden = false)
    (h3 : ticksLeft c "move" = 0)
    (h4 : isValid (destOf c ma).map (destOf c ma).x (destOf c ma).y = false) :
    (move isValid cfg c ma).1.location = c.location
    ∧ (move isValid cfg c ma).2 = emptyEffects
    ∧ (move isValid cfg c ma).1.inventory = c.inventory
    ∧ (move isValid cfg c ma).1.stats = c.stats
    ∧ (move isValid cfg c ma).1.target = c.target
    ∧ (move isValid cfg c ma).1.cooldowns
        = c.cooldowns ++ (if cfg "move" = 0 then []
            else [{ action := "move", ticks := cfg "move",
                    started := false, remove := false }]) := by
  cases ma with
  | mk grid dir =>
    by_cases hc : cfg "move" = 0 <;> cases grid <;>
      simp only [move, cooldownAdd, destOf, h1, h2, h3, hc, if_true, if_false,
        List.isEmpty_nil, Bool.not_true, Bool.false_eq_true] at h4 ⊢ <;>
      simp [h4, hc, emptyEffects]

/-- Witness for the amended C4 at a concrete character and config. -/
theorem C4_invalid_move_witness :
    baseChar.targetedBy = []
    ∧ baseChar.hidden = false
    ∧ ticksLeft baseChar "move" = 0
    ∧ c4Invalid (destOf baseChar { grid := Axis.x, direction := 1 }).map
        (destOf baseChar { grid := Axis.x, direction := 1 }).x
        (destOf baseChar { grid := Axis.x, direction := 1 }).y = false
    ∧ (move c4Invalid c4Cfg baseChar { grid := Axis.x, direction := 1 }).1.location
        = baseChar.location
    ∧ (move c4Invalid c4Cfg baseChar { grid := Axis.x, direction := 1 }).2
        = emptyEffects
    ∧ (move c4Invalid c4Cfg baseChar { grid := Axis.x, direction := 1 }).1.cooldowns
        = baseChar.cooldowns ++ [moveCooldown30] := by
  have h := C4_invalid_move c4Invalid c4Cfg baseChar
    { grid := Axis.x, direction := 1 } rfl rfl (by decide) rfl
  refine ⟨rfl, rfl, by decide, rfl, h.1, h.2.1, ?_⟩
  have h6 := h.2.2.2.2.2
  simpa using h6

/-- Claim C7, amended: when a declared slot's token (after preparation and
quote stripping) is empty and its non-empty rule chain lacks `required`, the
`break` ends the whole validation loop: the slot's remaining rules AND the
rule chains of every subsequent declared slot are skipped, and validation
resolves successfully with the parameters processed so far. -/
theorem C7_empty_slot_ends_validation (arr : List String) (p : CmdParam)
    (rest : List CmdParam) (i : Nat) (tok0 : String)
    (h1 : arr[i]? = some tok0)
    (h2 : stripEncapsulation tok0 = "")
    (h3 : p.rules ≠ [])
    (h4 : p.rules.contains Rule.required = false) :
    runSlots arr (p :: rest) i = VOut.ok (arr.set i "") := by
  have h3e : p.rules.isEmpty = false := by
    cases hr : p.rules with
    | nil => exact absurd hr h3
    | cons a l => rfl
  unfold runSlots
  rw [h1]
  simp only [h2, h3e, h4, Bool.false_eq_true, if_false, Bool.not_false,
    Bool.and_true, beq_self_eq_true, if_true]

/-- Witness for the amended C7: the `break` fires on the first slot and the
second slot's failing rule is never consulted. -/
theorem C7_empty_slot_ends_validation_witness :
    (["", "x"] : List String)[0]? = some ""
    ∧ stripEncapsulation "" = ""
    ∧ ([Rule.direction] : List Rule) ≠ []
    ∧ ([Rule.direction] : List Rule).contains Rule.required = false
    ∧ runSlots ["", "x"]
        [{ name := "a", rules := [Rule.direction] },
         { name := "b", rules := [Rule.minlen 5] }] 0
        = VOut.ok ["", "x"] := by
  refine ⟨rfl, rfl, by decide, by decide, ?_⟩
  have h := C7_empty_slot_ends_validation ["", "x"]
    { name := "a", rules := [Rule.direction] }
    [{ name := "b", rules := [Rule.minlen 5] }] 0 "" rfl rfl
    (by decide) (by decide)
  simpa using h

/-- Claim C8, amended: a dispatch whose connection resolves to no live
character is NOT dropped: validation runs with the absent character, and
whenever it resolves, the command handler is invoked with that absent
character (nothing is sent to the connection on this path). -/
theorem C8_dispatch_runs_without_character (commands : String → Option CmdDef)
    (characters : List Nat) (uid : Nat) (payload : String)
    (cmd0 : String) (rest : List String) (cdef : CmdDef) (ps : List String)
    (h0 : payload ≠ "")
    (h1 : jsTrim payload ≠ "")
    (h2 : parseParameters (jsTrim payload) = cmd0 :: rest)
    (h3 : commands (jsToLower cmd0) = some cdef)
    (h4 : getSyncL characters uid = none)
    (h5 : validate none rest cdef.params = VOut.ok ps) :
    onDispatch commands characters uid GAME_COMMAND payload
      = { handlerCalled := some (jsToLower cmd0, none, ps), socketMsgs := [] } := by
  have h0b : (payload == "") = false := by
    simpa using h0
  have h1b : (jsTrim payload == "") = false := by
    simpa using h1
  unfold onDispatch
  rw [beq_self_eq_true]
  simp only [Bool.not_true, Bool.false_eq_true, if_false, h0b, h1b, h2, h3]
  rw [h4]
  rw [h5]

/-- Witness for the amended C8 at the concrete `/ping` dispatch. -/
theorem C8_dispatch_runs_without_character_witness :
    ("/ping" : String) ≠ ""
    ∧ jsTrim "/ping" ≠ ""
    ∧ parseParameters (jsTrim "/ping") = ["/ping"]
    ∧ c8Commands (jsToLower "/ping") = some { params := none }
    ∧ getSyncL [] 7 = none
    ∧ validate none [] (none : Option (List CmdParam)) = VOut.ok []
    ∧ onDispatch c8Commands [] 7 GAME_COMMAND "/ping"
        = { handlerCalled := some (jsToLower "/ping", none, []), socketMsgs := [] } := by
  refine ⟨by decide, by decide, by decide, by decide, by decide, by decide, ?_⟩
  exact C8_dispatch_runs_without_character c8Commands [] 7 "/ping" "/ping" []
    { params := none } [] (by decide) (by decide) (by decide) (by decide)
    (by decide) (by decide)

/-! ### Supporting lemmas: inventory lengths and stats preservation -/

theorem addDurabilityFirst_length (inv : List Item) (id : Nat) (amt : Int) :
    (addDurabilityFirst inv id amt).length = inv.length := by
  induction inv with
  | nil => rfl
  | cons it rest ih =>
    unfold addDurabilityFirst
    split
    · simp
    · simp [ih]

theorem clearSlotFirst_length (inv : List Item) (slot : String) :
    (clearSlotFirst inv slot).length = inv.length := by
  induction inv with
  | nil => rfl
  | cons it rest ih =>
    unfold clearSlotFirst
    split
    · simp
    · simp [ih]

theorem length_eraseIdx_le {α : Type} (l : List α) (i : Nat) :
    (l.eraseIdx i).length ≤ l.length := by
  induction l generalizing i with
  | nil => simp [List.eraseIdx]
  | cons x xs ih =>
    cases i with
    | zero => simp [List.eraseIdx]
    | succ j =>
      simp only [List.eraseIdx_cons_succ, List.length_cons]
      exact Nat.succ_le_succ (ih j)

theorem giveStack_length (c : Character) (it : Item) (amt : Int) :
    (giveStack c it amt).inventory.length
      = if (c.inventory.find? (fun o => o.id == it.id)).isSome then
          c.inventory.length
        else c.inventory.length + 1 := by
  unfold giveStack
  split
  · exact addDurabilityFirst_length c.inventory it.id amt
  · simp

theorem giveStack_stats (c : Character) (it : Item) (amt : Int) :
    (giveStack c it amt).stats = c.stats := by
  unfold giveStack; split <;> rfl

theorem giveOne_length_le (c : Character) (it : Item) :
    (giveOne c it).inventory.length ≤ c.inventory.length + 1 := by
  unfold giveOne
  split
  · rw [giveStack_length]; split <;> omega
  · simp

theorem giveOne_stats (c : Character) (it : Item) :
    (giveOne c it).stats = c.stats := by
  unfold giveOne
  split
  · exact giveStack_stats c it 1
  · rfl

theorem extraGives_length_le (mk : Nat → Item) (id : Nat) (k : Nat)
    (c : Character) :
    (extraGives mk c id k).inventory.length ≤ c.inventory.length + k := by
  induction k generalizing c with
  | zero => simp [extraGives]
  | succ n ih =>
    unfold extraGives
    calc (extraGives mk (giveOne c (mk id)) id n).inventory.length
        ≤ (giveOne c (mk id)).inventory.length + n := ih _
      _ ≤ (c.inventory.length + 1) + n :=
          Nat.add_le_add_right (giveOne_length_le c (mk id)) n
      _ = c.inventory.length + (n + 1) := by omega

theorem extraGives_stats (mk : Nat → Item) (id : Nat) (k : Nat)
    (c : Character) : (extraGives mk c id k).stats = c.stats := by
  induction k generalizing c with
  | zero => rfl
  | succ n ih =>
    unfold extraGives
    rw [ih, giveOne_stats]

theorem giveItem_stats (mk : Nat → Item) (c : Character) (it : Item)
    (amount : Int) : (giveItem mk c it amount).stats = c.stats := by
  unfold giveItem
  split
  · exact giveStack_stats _ _ _
  · split
    · rfl
    · rw [extraGives_stats]

theorem giveItem_length_of_hasRoom (mk : Nat → Item) (c : Character)
    (it : Item) (amount : Int)
    (hamt : 0 ≤ amount)
    (hroom : hasRoomForItem c it amount = true)
    (hlen : (c.inventory.length : Int) ≤ c.stats.inventorySize) :
    ((giveItem mk c it amount).inventory.length : Int)
      ≤ c.stats.inventorySize := by
  by_cases hs : it.stats.stackable = true
  · unfold giveItem
    rw [if_pos hs, giveStack_length]
    by_cases hf : (c.inventory.find? (fun o => o.id == it.id)).isSome = true
    · rw [if_pos hf]; exact hlen
    · rw [if_neg (by simpa using hf)]
      unfold hasRoomForItem at hroom
      rw [if_pos hs, if_neg (by simpa using hf)] at hroom
      have hspace : ¬(inventorySpaceLeft c ≤ 0) := by
        intro hle
        rw [if_pos hle] at hroom
        exact Bool.false_ne_true hroom
      unfold inventorySpaceLeft at hspace
      push_cast
      omega
  · have hs' : it.stats.stackable = false := by
      revert hs; cases it.stats.stackable <;> simp
    unfold giveItem
    rw [if_neg (by simp [hs'])]
    unfold hasRoomForItem at hroom
    rw [if_neg (by simp [hs'])] at hroom
    by_cases ha : amount = 0
    · rw [if_pos ha]
      rw [if_pos ha] at hroom
      have hspace : ¬(inventorySpaceLeft c - 1 < 0) := by
        intro hlt
        rw [if_pos hlt] at hroom
        exact Bool.false_ne_true hroom
      unfold inventorySpaceLeft at hspace
      simp only [List.length_append, List.length_cons, List.length_nil]
      push_cast
      omega
    · rw [if_neg ha]
      rw [if_neg ha] at hroom
      have hspace : ¬(inventorySpaceLeft c - amount < 0) := by
        intro hlt
        rw [if_pos hlt] at hroom
        exact Bool.false_ne_true hroom
      unfold inventorySpaceLeft at hspace
      have hext := extraGives_length_le mk it.id (amount - 1).toNat
        { c with inventory := c.inventory ++ [it] }
      simp only [List.length_append, List.length_cons, List.length_nil] at hext
      have hcast : ((extraGives mk { c with inventory := c.inventory ++ [it] }
          it.id (amount - 1).toNat).inventory.length : Int)
          ≤ ((c.inventory.length + 1 + (amount - 1).toNat : Nat) : Int) := by
        exact_mod_cast hext
      push_cast at hcast
      omega

theorem equip_stats (c : Character) (i : Nat) : (equip c i).stats = c.stats := by
  unfold equip
  split
  · rfl
  · split
    · rfl
    · split
      · rfl
      · rfl

theorem equip_length (c : Character) (i : Nat) :
    (equip c i).inventory.length = c.inventory.length := by
  unfold equip
  split
  · rfl
  · split
    · rfl
    · split
      · rfl
      · simp [List.length_set, clearSlotFirst_length]

theorem unEquip_stats (c : Character) (s : String) :
    (unEquip c s).stats = c.stats := by
  unfold unEquip; split <;> rfl

theorem unEquip_length (c : Character) (s : String) :
    (unEquip c s).inventory.length = c.inventory.length := by
  unfold unEquip
  split
  · rfl
  · simp [clearSlotFirst_length]

theorem takeItem_stats (c : Character) (i : Nat) (amount : Int)
    (itemList : Nat → Option Item) :
    (takeItem c i amount itemList).2.stats = c.stats := by
  unfold takeItem
  split
  · rfl
  · split
    · rfl
    · split
      · rfl
      · split
        · rfl
        · dsimp only
          split
          · rfl
          · rfl

theorem takeItem_length_le (c : Character) (i : Nat) (amount : Int)
    (itemList : Nat → Option Item) :
    (takeItem c i amount itemList).2.inventory.length
      ≤ c.inventory.length := by
  unfold takeItem
  split
  · exact Nat.le_refl _
  · split
    · exact Nat.le_refl _
    · split
      · exact length_eraseIdx_le _ _
      · split
        · exact Nat.le_refl _
        · dsimp only
          split
          · exact length_eraseIdx_le _ _
          · simp [List.length_set]

theorem dropItem_stats (mk : Nat → Item) (c : Character) (sel : Sum Int String)
    (amount : Int) (isFleeing : Bool) (fleeRoll : Int) :
    (dropItem mk c sel amount isFleeing fleeRoll).2.stats = c.stats := by
  unfold dropItem
  dsimp only
  split
  · rfl
  · split
    · rfl
    · split
      · rfl
      · split <;> repeat' (first | split | dsimp only)
        all_goals first
          | rfl
          | exact unEquip_stats _ _

theorem dropItem_length_le (mk : Nat → Item) (c : Character)
    (sel : Sum Int String) (amount : Int) (isFleeing : Bool) (fleeRoll : Int) :
    (dropItem mk c sel amount isFleeing fleeRoll).2.inventory.length
      ≤ c.inventory.length := by
  unfold dropItem
  dsimp only
  split
  · exact Nat.le_refl _
  · split
    · exact Nat.le_refl _
    · split
      · exact Nat.le_refl _
      · split <;> repeat' (first | split | dsimp only)
        all_goals try simp only [List.length_set]
        all_goals first
          | exact Nat.le_refl _
          | exact Nat.le_of_eq (unEquip_length _ _)
          | exact length_eraseIdx_le _ _
          | exact le_trans (length_eraseIdx_le _ _)
              (Nat.le_of_eq (unEquip_length _ _))

theorem applyOp_stats (mk : Nat → Item) (itemList : Nat → Option Item)
    (op : InvOp) (c : Character) :
    (applyOp mk itemList op c).stats = c.stats := by
  cases op with
  | give itemObj amount =>
    dsimp only [applyOp]
    split
    · exact giveItem_stats _ _ _ _
    · rfl
  | equipIdx i => exact equip_stats c i
  | unequipSlot s => exact unEquip_stats c s
  | drop sel amount isFleeing fleeRoll => exact dropItem_stats _ _ _ _ _ _
  | take i amount => exact takeItem_stats _ _ _ _

theorem applyOp_length (mk : Nat → Item) (itemList : Nat → Option Item)
    (op : InvOp) (c : Character) (hop : InvOp.goodAmount op)
    (h : (c.inventory.length : Int) ≤ c.stats.inventorySize) :
    ((applyOp mk itemList op c).inventory.length : Int)
      ≤ c.stats.inventorySize := by
  cases op with
  | give itemObj amount =>
    dsimp only [applyOp]
    split
    · next hroom => exact giveItem_length_of_hasRoom mk c itemObj amount hop hroom h
    · exact h
  | equipIdx i =>
    have := equip_length c i
    dsimp only [applyOp]
    omega
  | unequipSlot s =>
    have := unEquip_length c s
    dsimp only [applyOp]
    omega
  | drop sel amount isFleeing fleeRoll =>
    have := dropItem_length_le mk c sel amount isFleeing fleeRoll
    dsimp only [applyOp]
    omega
  | take i amount =>
    have := takeItem_length_le c i amount itemList
    dsimp only [applyOp]
    omega

/-- Claim C2, amended: inventory length stays within `stats.inventorySize`
along every sequence of operations in which each `giveItem` carries a
nonnegative amount and is guarded by a successful `hasRoomForItem` pre-check
(the capacity check the source pairs with `giveItem`); an unguarded
`giveItem` on a full inventory exceeds the limit (see the counterexample). -/
theorem C2_capacity_amended (mk : Nat → Item) (itemList : Nat → Option Item)
    (ops : List InvOp) (c : Character)
    (hops : ∀ op ∈ ops, InvOp.goodAmount op)
    (h : (c.inventory.length : Int) ≤ c.stats.inventorySize) :
    ((applyOps mk itemList ops c).inventory.length : Int)
      ≤ (applyOps mk itemList ops c).stats.inventorySize := by
  induction ops generalizing c with
  | nil => simpa [applyOps] using h
  | cons op rest ih =>
    have hop : InvOp.goodAmount op := hops op (List.mem_cons_self op rest)
    have hrest : ∀ o ∈ rest, InvOp.goodAmount o :=
      fun o ho => hops o (List.mem_cons_of_mem op ho)
    have hstep := applyOp_length mk itemList op c hop h
    have hstats := applyOp_stats mk itemList op c
    have hnext : ((applyOp mk itemList op c).inventory.length : Int)
        ≤ (applyOp mk itemList op c).stats.inventorySize := by
      rw [hstats]; exact hstep
    have := ih (applyOp mk itemList op c) hrest hnext
    simpa [applyOps, List.foldl_cons] using this

/-- Witness for the amended C2: giving one knife to an empty 30-slot
inventory, then equipping and dropping it. -/
theorem C2_capacity_amended_witness :
    (∀ op ∈ [InvOp.give knife 1, InvOp.equipIdx 0,
      InvOp.drop (Sum.inl 0) 1 false 0], InvOp.goodAmount op)
    ∧ ((baseChar.inventory.length : Int) ≤ baseChar.stats.inventorySize)
    ∧ ((applyOps mkDefault (fun _ => none)
        [InvOp.give knife 1, InvOp.equipIdx 0,
         InvOp.drop (Sum.inl 0) 1 false 0] baseChar).inventory.length : Int)
      ≤ (applyOps mkDefault (fun _ => none)
        [InvOp.give knife 1, InvOp.equipIdx 0,
         InvOp.drop (Sum.inl 0) 1 false 0] baseChar).stats.inventorySize := by
  refine ⟨?_, by decide, ?_⟩
  · intro op hop
    simp only [List.mem_cons, List.not_mem_nil, or_false] at hop
    rcases hop with h | h | h <;> subst h <;> simp [InvOp.goodAmount]
  · exact C2_capacity_amended mkDefault (fun _ => none) _ baseChar
      (by
        intro op hop
        simp only [List.mem_cons, List.not_mem_nil, or_false] at hop
        rcases hop with h | h | h <;> subst h <;> simp [InvOp.goodAmount])
      (by decide)

/-! ### Supporting lemmas: dealDamage and giveItem counting -/

theorem getEquippedSync_setFirstArmorDurability (inv : List Item) (it : Item)
    (d : Int)
    (h : inv.find? (fun o => o.equipped_slot == some "armor") = some it) :
    (setFirstArmorDurability inv d).find?
        (fun o => o.equipped_slot == some "armor")
      = some (it.setDurability d) := by
  induction inv with
  | nil => simp at h
  | cons x rest ih =>
    by_cases hx : (x.equipped_slot == some "armor") = true
    · simp only [List.find?, hx] at h
      injection h with h
      subst h
      unfold setFirstArmorDurability
      rw [if_pos hx]
      simp only [List.find?]
      rw [show (({ x with stats := { x.stats with durability := d } } : Item).equipped_slot
          == some "armor") = true from hx]
      rfl
    · have hxf : (x.equipped_slot == some "armor") = false := by
        revert hx; cases (x.equipped_slot == some "armor") <;> simp
      simp only [List.find?, hxf] at h
      unfold setFirstArmorDurability
      rw [if_neg hx]
      simp only [List.find?, hxf]
      exact ih h

theorem extraGives_length_exact (mk : Nat → Item) (id : Nat)
    (hmk : (mk id).stats.stackable = false) (k : Nat) (c : Character) :
    (extraGives mk c id k).inventory.length = c.inventory.length + k := by
  induction k generalizing c with
  | zero => rfl
  | succ n ih =>
    unfold extraGives
    rw [ih]
    unfold giveOne
    rw [if_neg (by simp [hmk])]
    simp
    omega

theorem addDurabilityFirst_countP (inv : List Item) (id : Nat) (amt : Int) :
    (addDurabilityFirst inv id amt).countP (fun o => o.id == id)
      = inv.countP (fun o => o.id == id) := by
  induction inv with
  | nil => rfl
  | cons x rest ih =>
    unfold addDurabilityFirst
    by_cases hx : (x.id == id) = true
    · rw [if_pos hx]
      simp only [List.countP_cons]
      have : ((x.addDurability amt).id == id) = (x.id == id) := rfl
      rw [this]
    · rw [if_neg hx]
      simp only [List.countP_cons, ih]

/-! ### Claim theorems: dealDamage and giveItem -/

/-- Claim C3: `dealDamage` computes blocked as min(amount, damage reduction,
armor durability) when armor is equipped and not ignored (0 otherwise,
nonnegative amounts), dealt as max(0, amount − blocked), new health as
max(0, health − dealt); it decrements the equipped armor's durability by the
FULL incoming amount (durabilityLeft = max(0, durability − amount)), and
reports armorRuined exactly when a positive durability reached 0.  With no
armor at 100/100 health, dealDamage(30) yields
(blocked 0, dealt 30, healthLeft 70, durabilityLeft 0, no ruin); with armor
of reduction 10 and durability 5, dealDamage(8) yields blocked 5, dealt 3,
durabilityLeft 0 and armorRuined. -/
theorem C3_dealDamage :
    (∀ (c : Character) (damage : Int) (ignoreArmor : Bool),
      0 ≤ damage →
      (∀ it, getEquippedSync c "armor" = some it → 0 ≤ it.stats.durability) →
      (∀ it, getEquippedSync c "armor" = some it → ignoreArmor = false →
        (dealDamage c damage ignoreArmor).2.damageBlocked
          = min damage (min it.stats.damage_reduction it.stats.durability)
        ∧ (dealDamage c damage ignoreArmor).2.durabilityLeft
          = max 0 (it.stats.durability - damage)
        ∧ getEquippedSync (dealDamage c damage ignoreArmor).1 "armor"
          = some (it.setDurability (dealDamage c damage ignoreArmor).2.durabilityLeft)
        ∧ ((dealDamage c damage ignoreArmor).2.armorRuined = true ↔
            (0 < it.stats.durability
             ∧ (dealDamage c damage ignoreArmor).2.durabilityLeft = 0)))
      ∧ ((getEquippedSync c "armor" = none ∨ ignoreArmor = true) →
        (dealDamage c damage ignoreArmor).2.damageBlocked = 0
        ∧ (dealDamage c damage ignoreArmor).2.durabilityLeft = 0
        ∧ (dealDamage c damage ignoreArmor).2.armorRuined = false)
      ∧ (dealDamage c damage ignoreArmor).2.damageDealt
          = max 0 (damage - (dealDamage c damage ignoreArmor).2.damageBlocked)
      ∧ (dealDamage c damage ignoreArmor).2.healthLeft
          = max 0 (c.stats.health - (dealDamage c damage ignoreArmor).2.damageDealt)
      ∧ (dealDamage c damage ignoreArmor).1.stats.health
          = (dealDamage c damage ignoreArmor).2.healthLeft)
    ∧ (dealDamage c3NoArmor 30 false).2
        = { damageBlocked := 0, damageDealt := 30, healthLeft := 70,
            durabilityLeft := 0, armorRuined := false }
    ∧ (dealDamage c3NoArmor 30 false).1.stats.health = 70
    ∧ (dealDamage c3Armored 8 false).2
        = { damageBlocked := 5, damageDealt := 3, healthLeft := 97,
            durabilityLeft := 0, armorRuined := true } := by
  refine ⟨?_, by decide, by decide, by decide⟩
  intro c damage ignoreArmor hd hdur
  cases harm : getEquippedSync c "armor" with
  | none =>
    refine ⟨?_, ?_, ?_, ?_, ?_⟩
    · intro it hit
      exact absurd hit (by simp)
    · intro _
      cases ignoreArmor <;>
        simp only [dealDamage, harm] <;>
        refine ⟨by omega, by omega, by simp⟩
    · cases ignoreArmor <;> simp only [dealDamage, harm]
    · cases ignoreArmor <;> simp only [dealDamage, harm]
    · cases ignoreArmor <;> simp only [dealDamage, harm]
  | some it0 =>
    have hd0 : 0 ≤ it0.stats.durability := hdur it0 harm
    refine ⟨?_, ?_, ?_, ?_, ?_⟩
    · intro it hit hig
      injection hit with hit
      subst hit
      subst hig
      refine ⟨?_, ?_, ?_, ?_⟩
      · simp only [dealDamage, harm]
      · simp only [dealDamage, harm]
      · simp only [dealDamage, harm]
        exact getEquippedSync_setFirstArmorDurability c.inventory it0 _ harm
      · simp only [dealDamage, harm]
        constructor
        · intro hb
          simp only [Bool.and_eq_true, beq_iff_eq, Bool.not_eq_true',
            beq_eq_false_iff_ne] at hb
          omega
        · intro hb
          simp only [Bool.and_eq_true, beq_iff_eq, Bool.not_eq_true',
            beq_eq_false_iff_ne]
          omega
    · intro hor
      rcases hor with hnone | hig
      · exact absurd hnone (by simp)
      · subst hig
        simp only [dealDamage, harm]
        refine ⟨by omega, by omega, by simp⟩
    · cases ignoreArmor <;> simp only [dealDamage, harm]
    · cases ignoreArmor <;> simp only [dealDamage, harm]
    · cases ignoreArmor <;> simp only [dealDamage, harm]

/-- Witness for C3 on the armored character (reduction 10, durability 5,
hit for 8). -/
theorem C3_dealDamage_witness :
    ((0 : Int) ≤ 8)
    ∧ getEquippedSync c3Armored "armor" = some c3ArmorItem
    ∧ (dealDamage c3Armored 8 false).2.damageBlocked
        = min 8 (min c3ArmorItem.stats.damage_reduction c3ArmorItem.stats.durability)
    ∧ (dealDamage c3Armored 8 false).2.durabilityLeft
        = max 0 (c3ArmorItem.stats.durability - 8)
    ∧ ((dealDamage c3Armored 8 false).2.armorRuined = true ↔
        (0 < c3ArmorItem.stats.durability
         ∧ (dealDamage c3Armored 8 false).2.durabilityLeft = 0))
    ∧ (dealDamage c3Armored 8 false).2.damageDealt
        = max 0 (8 - (dealDamage c3Armored 8 false).2.damageBlocked) := by
  have harm : getEquippedSync c3Armored "armor" = some c3ArmorItem := by decide
  have hdur : ∀ it, getEquippedSync c3Armored "armor" = some it →
      0 ≤ it.stats.durability := by
    intro it h
    rw [harm] at h
    injection h with h
    rw [← h]
    decide
  have h := C3_dealDamage.1 c3Armored 8 false (by decide) hdur
  have h1 := h.1 c3ArmorItem harm rfl
  exact ⟨by decide, harm, h1.1, h1.2.1, h1.2.2.2, h.2.2.1⟩

/-- Claim C9: a non-stackable give of amount n adds exactly n separate
inventory entries (fresh instances of the same template), each separately
removable by index through `dropItem`; a stackable give merges into the
existing stack with the same template id when one exists (length and count
of entries for that id unchanged) and otherwise starts exactly one new stack
(never a second entry for that id). -/
theorem C9_giveItem :
    (∀ (mk : Nat → Item) (c : Character) (it : Item) (n : Int),
      1 ≤ n → it.stats.stackable = false → (mk it.id).stats.stackable = false →
      ((giveItem mk c it n).inventory.length : Int)
        = (c.inventory.length : Int) + n)
    ∧ (∀ (mk : Nat → Item) (c : Character) (i : Nat) (it : Item),
      c.inventory[i]? = some it → it.stats.stackable = false →
      it.slot = none →
      dropItem mk c (Sum.inl ((i : Nat) : Int)) 1 false 0
        = (some it, { c with inventory := c.inventory.eraseIdx i }))
    ∧ (∀ (mk : Nat → Item) (c : Character) (it : Item) (n : Int),
      it.stats.stackable = true →
      (((c.inventory.find? (fun o => o.id == it.id)).isSome = true →
        (giveItem mk c it n).inventory.length = c.inventory.length
        ∧ (giveItem mk c it n).inventory.countP (fun o => o.id == it.id)
            = c.inventory.countP (fun o => o.id == it.id))
      ∧ ((c.inventory.find? (fun o => o.id == it.id)).isSome = false →
        (giveItem mk c it n).inventory.length = c.inventory.length + 1
        ∧ (giveItem mk c it n).inventory.countP (fun o => o.id == it.id)
            = c.inventory.countP (fun o => o.id == it.id) + 1))) := by
  refine ⟨?_, ?_, ?_⟩
  · intro mk c it n hn hst hmk
    unfold giveItem
    rw [if_neg (by simp [hst])]
    rw [if_neg (by omega)]
    rw [extraGives_length_exact mk it.id hmk]
    simp only [List.length_append, List.length_cons, List.length_nil]
    push_cast
    omega
  · intro mk c i it hget hst hslot
    have h1 : ¬((i : Int) = -1) := by omega
    have h2 : ¬((i : Int) < 0) := by omega
    have hgd : c.inventory.getD i it = it := by
      simp [List.getD_eq_getElem?_getD, hget]
    unfold dropItem
    dsimp only
    rw [if_neg h1, if_neg h2, Int.toNat_natCast, hget]
    simp only [Bool.false_and, Bool.false_eq_true, if_false, hgd, hslot]
    simp [jsTruthyStr, hst]
  · intro mk c it n hst
    constructor
    · intro hf
      unfold giveItem
      rw [if_pos (by simp [hst])]
      unfold giveStack
      rw [if_pos hf]
      exact ⟨addDurabilityFirst_length _ _ _, addDurabilityFirst_countP _ _ _⟩
    · intro hf
      unfold giveItem
      rw [if_pos (by simp [hst])]
      unfold giveStack
      rw [if_neg (by simp [hf])]
      constructor
      · simp
      · simp only [List.countP_append]
        have : ((it.setDurability
            (if n = 0 then it.stats.durability else n)).id == it.id) = true := by
          simp [Item.setDurability]
        simp [List.countP_cons, this]

/-- Witness for C9: three knives give three entries; the knife at index 0 of
the full single-slot character drops as one entry; bullets start exactly one
stack in an empty inventory. -/
theorem C9_giveItem_witness :
    ((1 : Int) ≤ 3)
    ∧ knife.stats.stackable = false
    ∧ (mkDefault knife.id).stats.stackable = false
    ∧ ((giveItem mkDefault baseChar knife 3).inventory.length : Int)
        = (baseChar.inventory.length : Int) + 3
    ∧ c2Char.inventory[0]? = some knife
    ∧ knife.slot = none
    ∧ dropItem mkDefault c2Char (Sum.inl ((0 : Nat) : Int)) 1 false 0
        = (some knife, { c2Char with inventory := c2Char.inventory.eraseIdx 0 })
    ∧ bullets.stats.stackable = true
    ∧ (baseChar.inventory.find? (fun o => o.id == bullets.id)).isSome = false
    ∧ (giveItem mkDefault baseChar bullets 0).inventory.length
        = baseChar.inventory.length + 1
    ∧ (giveItem mkDefault baseChar bullets 0).inventory.countP
        (fun o => o.id == bullets.id)
        = baseChar.inventory.countP (fun o => o.id == bullets.id) + 1 := by
  have ha := C9_giveItem.1 mkDefault baseChar knife 3 (by decide) (by decide)
    (by decide)
  have hb := C9_giveItem.2.1 mkDefault c2Char 0 knife (by decide) (by decide)
    (by decide)
  have hc := (C9_giveItem.2.2 mkDefault baseChar bullets 0 (by decide)).2
    (by decide)
  exact ⟨by decide, by decide, by decide, ha, by decide, by decide, hb,
    by decide, by decide, hc.1, hc.2⟩

end PTP
